import Mathlib

/-!
Verification development for the SuperBoot UEFI meta-bootloader.

Shallow embedding of the C sources under `src/`:
  * `src/boot/loader.h`  — Linux boot-protocol structure layouts
  * `src/boot/linux.c`   — EFI handover / legacy bzImage boot paths,
                            EFI memory-map → E820 conversion
  * `src/fs/ext4.c`      — read-only ext4 driver
  * `src/fs/vfs.c`       — VFS mount table / device open
  * `src/config/limine.c`— Limine-style section config parser
  * `src/util/string.c`  — byte-string helpers

Machine integers are modelled as `Nat` with explicit `% 2^w` where
overflow can matter; firmware calls are modelled by explicit oracles;
the disk is a partial byte map `Nat → Option Nat` (a `none` byte
models a failing firmware read covering that offset).
-/

set_option maxRecDepth 40000

namespace SuperBoot

/-- Little-endian read of `len` bytes from a byte list at `off`
(missing bytes read as 0, as a C read past a buffer we model as 0). -/
def readLE (d : List Nat) (off len : Nat) : Nat :=
  match len with
  | 0 => 0
  | n + 1 => d.getD off 0 + 256 * readLE d (off + 1) n

/-- Little-endian encoding of `v` into `len` bytes. -/
def encLE (v len : Nat) : List Nat :=
  match len with
  | 0 => []
  | n + 1 => v % 256 :: encLE (v / 256) n

/-! ## Linux boot-protocol layout (`src/boot/loader.h`)

The `LinuxSetupHeader` and `LinuxBootParams` structs are declared under
`#pragma pack(1)`, so their field offsets are the running sums of the
declared field sizes, exactly in declaration order. -/

/-- Sizes in bytes of the `LinuxSetupHeader` fields, in declaration
order (`setup_sects` … `handover_offset`). -/
def linuxSetupHeaderFieldSizes : List Nat :=
  [1, 2, 4, 2, 2, 2, 2,          -- setup_sects … boot_flag
   2, 4, 2, 4, 2, 2, 1, 1, 2, 4, -- jump … code32_start
   4, 4, 4, 2, 1, 1, 4, 4, 4,    -- ramdisk_image … kernel_alignment
   1, 1, 2, 4, 4, 8, 4, 4, 8, 8, -- relocatable_kernel … pref_address
   4, 4]                          -- init_size, handover_offset

/-- Packed size of `LinuxSetupHeader`. -/
def sizeofLinuxSetupHeader : Nat := linuxSetupHeaderFieldSizes.sum

/-- Offset of `screen_info` in `LinuxBootParams` (first field). -/
def screenInfoOffset : Nat := 0

/-- Declared size of the `screen_info` member: `UINT8 screen_info[64]`. -/
def screenInfoSize : Nat := 64

/-- Declared size of `_pad1`: the source declares `UINT8 _pad1[0x1C0 - 64]`. -/
def pad1Size : Nat := 0x1C0 - 64

/-- Byte offset of the `e820_entries` field of `LinuxBootParams`,
as laid out by the packed struct declaration. -/
def e820EntriesOffset : Nat := screenInfoOffset + screenInfoSize + pad1Size

/-- Declared size of `_pad2`: `UINT8 _pad2[0x1F1 - 0x1E9]`. -/
def pad2Size : Nat := 0x1F1 - 0x1E9

/-- Byte offset of the embedded setup header `hdr` in `LinuxBootParams`. -/
def hdrOffset : Nat := e820EntriesOffset + 1 + pad2Size

/-- Declared size of `_pad3`: `UINT8 _pad3[4096 - 0x1F1 - sizeof(LinuxSetupHeader)]`. -/
def pad3Size : Nat := 4096 - 0x1F1 - sizeofLinuxSetupHeader

/-- Packed size of `LinuxBootParams`. -/
def sizeofLinuxBootParams : Nat := hdrOffset + sizeofLinuxSetupHeader + pad3Size

/-- Byte offset at which `boot_legacy_bzimage` copies the E820 table:
the source uses the explicit constant `CopyMem((UINT8 *)bp + 0x2D0, …)`. -/
def legacyE820TableOffset : Nat := 0x2D0

/-! ## EFI handover entry computation (`boot_efi_handover`, linux.c) -/

/-- Setup size computed by both boot paths:
`setup_sects = hdr->setup_sects; if (setup_sects == 0) setup_sects = 4;
setup_size = (setup_sects + 1) * 512;`. -/
def setupSize (setup_sects : Nat) : Nat :=
  ((if setup_sects = 0 then 4 else setup_sects) + 1) * 512

/-- Entry-point address computed by `boot_efi_handover`:
`kernel_base = kernel_buf + setup_size;
handover = kernel_base + hdr->handover_offset + 512`.
Returns `none` when `handover_offset == 0` (EFI_UNSUPPORTED). -/
def efiHandoverEntry (kernel_buf setup_sects handover_offset : Nat) :
    Option Nat :=
  if handover_offset = 0 then none
  else some (kernel_buf + setupSize setup_sects + handover_offset + 512)

/-- Setup size as the specification words it: `(max(setup_sects, 4) + 1) × 512`.
Used only to compare the spec's formula against the code's. -/
def setupSizeSpec (setup_sects : Nat) : Nat :=
  (max setup_sects 4 + 1) * 512

/-! ## EFI memory map → E820 (`sb_efi_memmap_to_e820`, linux.c)

The firmware memory map is a byte buffer walked with a `desc_size`
stride; each record is an `EFI_MEMORY_DESCRIPTOR` with `Type` (UINT32)
at offset 0, `PhysicalStart` (UINT64) at offset 8 and `NumberOfPages`
(UINT64) at offset 24. -/

/-- Standard UEFI memory type numbers used by the switch in
`efi_mem_to_e820_type`. -/
def EfiLoaderCode : Nat := 1
def EfiLoaderData : Nat := 2
def EfiBootServicesCode : Nat := 3
def EfiBootServicesData : Nat := 4
def EfiConventionalMemory : Nat := 7
def EfiACPIReclaimMemory : Nat := 9
def EfiACPIMemoryNVS : Nat := 10

/-- The `switch` in `efi_mem_to_e820_type`. -/
def efi_mem_to_e820_type (t : Nat) : Nat :=
  if t = EfiLoaderCode ∨ t = EfiLoaderData ∨ t = EfiBootServicesCode ∨
     t = EfiBootServicesData ∨ t = EfiConventionalMemory then 1
  else if t = EfiACPIReclaimMemory then 3
  else if t = EfiACPIMemoryNVS then 4
  else 2

/-- An output E820 entry `{addr64, size64, type32}`. -/
structure E820Entry where
  addr : Nat
  size : Nat
  type : Nat
deriving DecidableEq, Repr

/-- Loop body of `sb_efi_memmap_to_e820` for one descriptor, given the
already-mapped `t`, `addr` and byte `size`: merge into the previous
output entry when the type matches and the regions abut (64-bit
machine addition), else append a fresh entry. -/
def e820Step (acc : List E820Entry) (t addr size : Nat) : List E820Entry :=
  match acc.getLast? with
  | some prev =>
      if prev.type = t ∧ (prev.addr + prev.size) % 2 ^ 64 = addr then
        acc.dropLast ++ [⟨prev.addr, (prev.size + size) % 2 ^ 64, prev.type⟩]
      else acc ++ [⟨addr, size, t⟩]
  | none => [⟨addr, size, t⟩]

/-- The walk of `sb_efi_memmap_to_e820`: `p` starts at the buffer and
advances by `desc_size` while `p < end ∧ count < max_entries`. The
loop runs for at most `fuel` further iterations; since a positive
stride consumes at least one byte per iteration, `mmapSize + 1` fuel
is never exhausted (a `desc_size` of 0 would loop forever in the C). -/
def e820Walk (bytes : List Nat) (mmapSize descSize : Nat) (maxE : Nat) :
    Nat → Nat → List E820Entry → List E820Entry
  | 0, _, acc => acc
  | fuel + 1, pos, acc =>
      if pos < mmapSize ∧ acc.length < maxE then
        e820Walk bytes mmapSize descSize maxE fuel (pos + descSize)
          (e820Step acc (efi_mem_to_e820_type (readLE bytes pos 4))
            (readLE bytes (pos + 8) 8)
            (readLE bytes (pos + 24) 8 * 4096 % 2 ^ 64))
      else acc

/-- `sb_efi_memmap_to_e820(mmap, mmap_size, desc_size, e820, max_entries)`:
returns the list of emitted entries (the C returns the count and fills
the caller's array). -/
def sb_efi_memmap_to_e820 (bytes : List Nat) (mmapSize descSize maxE : Nat) :
    List E820Entry :=
  e820Walk bytes mmapSize descSize maxE (mmapSize + 1) 0 []

/-- Byte encoding of one firmware memory descriptor occupying
`desc_size = 48` bytes (UINT32 Type, pad, UINT64 PhysicalStart,
UINT64 VirtualStart, UINT64 NumberOfPages, UINT64 Attribute, pad). -/
def mkDesc48 (t addr pages : Nat) : List Nat :=
  encLE t 4 ++ encLE 0 4 ++ encLE addr 8 ++ encLE 0 8 ++
  encLE pages 8 ++ encLE 0 8 ++ encLE 0 8

/-! ## Legacy bzImage hand-off tail (`boot_legacy_bzimage`, linux.c)

Model of the segment from the first `GetMemoryMap` size probe to the
kernel jump, as a trace of firmware calls driven by an oracle of
firmware statuses. `none` as a result means control reached the
post-`ExitBootServices` kernel jump. -/

/-- Firmware status kinds the modelled code distinguishes. -/
inductive EfiStatus where
  | success
  | outOfResources
  | unsupported
  | notFound
  | invalidParameter
  | deviceError
  | bufferTooSmall
  | loadError
  | volumeCorrupted
deriving DecidableEq, Repr

/-- Firmware boot-service calls appearing in the modelled segment. -/
inductive FwCall where
  | getMapSize   -- GetMemoryMap with a NULL buffer (size probe)
  | getMap       -- GetMemoryMap into the allocated buffer
  | allocPool    -- AllocatePool
  | exitBS       -- ExitBootServices
deriving DecidableEq, Repr

/-- Oracle for the firmware statuses consumed by the hand-off segment. -/
structure LegacyOracle where
  allocOk : Bool           -- AllocatePool for the map buffer succeeds
  map1 : EfiStatus         -- second GetMemoryMap (into the buffer)
  ebs1 : EfiStatus         -- first ExitBootServices
  map2 : EfiStatus         -- GetMemoryMap re-fetch on the retry path
  ebs2 : EfiStatus         -- second ExitBootServices

/-- Tail of `boot_legacy_bzimage` from the memory-map capture onward:
returns `(result, trace)` where `result = none` means the point of no
return was passed (kernel jump) and `result = some s` means the
function returned the firmware error `s`. -/
def legacyTail (o : LegacyOracle) : Option EfiStatus × List FwCall :=
  -- First call: get required buffer size (status ignored by the code).
  let tr0 := [FwCall.getMapSize]
  -- mmap = AllocatePool(mmap_size);
  if o.allocOk = false then
    (some EfiStatus.outOfResources, tr0 ++ [FwCall.allocPool])
  else
    let tr1 := tr0 ++ [FwCall.allocPool, FwCall.getMap]
    if o.map1 ≠ EfiStatus.success then (some o.map1, tr1)
    else
      -- E820 conversion and the zero-page writes are pure (no calls).
      let tr2 := tr1 ++ [FwCall.exitBS]
      if o.ebs1 = EfiStatus.success then (none, tr2)
      else
        -- Retry once: size probe (status ignored) + re-fetch into the
        -- existing buffer — no allocation.
        let tr3 := tr2 ++ [FwCall.getMapSize, FwCall.getMap]
        if o.map2 ≠ EfiStatus.success then (some o.map2, tr3)
        else
          let tr4 := tr3 ++ [FwCall.exitBS]
          if o.ebs2 = EfiStatus.success then (none, tr4)
          else (some o.ebs2, tr4)

/-! ## VFS mount table (`src/fs/vfs.c`)

Device handles are `Nat`. The firmware handle database and the
built-in drivers' probe/mount outcomes are a deterministic
environment; the mount table is the list `mounts[0..mount_count)`. -/

/-- Deterministic firmware/driver environment seen by `sb_vfs_open_device`. -/
structure VfsEnv where
  hasSFS : Nat → Bool            -- device offers SimpleFileSystem
  hasBlockIo : Nat → Bool        -- device offers Block I/O
  probeOk : Nat → Nat → Bool     -- driver index, device → probe succeeds
  mountCtx : Nat → Nat → Option Nat -- driver index, device → fs_context

/-- One `VfsMount` slot as recorded in the table. -/
structure VfsMount where
  device : Nat
  is_native : Bool
  driver : Option Nat
  fs_context : Option Nat
deriving DecidableEq, Repr

/-- Bound `VFS_MAX_MOUNTS` on the mount table. -/
def VFS_MAX_MOUNTS : Nat := 64

/-- Linear search `find_mount`. -/
def find_mount (tbl : List VfsMount) (d : Nat) : Option VfsMount :=
  tbl.find? (fun m => m.device = d)

/-- The `builtin_drivers` loop: first driver whose probe succeeds and
whose mount then succeeds wins; a probe hit whose mount fails falls
through to the next driver. -/
def tryDrivers (env : VfsEnv) (d : Nat) : List Nat → Option (Nat × Nat)
  | [] => none
  | i :: rest =>
      if env.probeOk i d then
        match env.mountCtx i d with
        | some ctx => some (i, ctx)
        | none => tryDrivers env d rest
      else tryDrivers env d rest

/-- Indices of the `builtin_drivers` table (ext4, btrfs, xfs, ntfs). -/
def builtinDriverIdx : List Nat := [0, 1, 2, 3]

/-- `sb_vfs_open_device`: returns the status together with the new
mount table. -/
def sb_vfs_open_device (env : VfsEnv) (tbl : List VfsMount) (d : Nat) :
    EfiStatus × List VfsMount :=
  if (find_mount tbl d).isSome then (EfiStatus.success, tbl)
  else if VFS_MAX_MOUNTS ≤ tbl.length then (EfiStatus.outOfResources, tbl)
  else if env.hasSFS d then
    (EfiStatus.success, tbl ++ [⟨d, true, none, none⟩])
  else if env.hasBlockIo d = false then (EfiStatus.unsupported, tbl)
  else
    match tryDrivers env d builtinDriverIdx with
    | some (i, ctx) =>
        (EfiStatus.success, tbl ++ [⟨d, false, some i, some ctx⟩])
    | none => (EfiStatus.unsupported, tbl)

/-- Number of mount-table entries keyed by device `d`. -/
def mountKeyCount (tbl : List VfsMount) (d : Nat) : Nat :=
  (tbl.filter (fun m => m.device = d)).length

/-! ## ext4 driver (`src/fs/ext4.c`)

The device is a partial byte map; a firmware `ReadDisk`/`ReadBlocks`
succeeds exactly when every byte of the requested range is present. -/

/-- A block device: byte offset → byte (`none` = that offset cannot
be read, modelling a firmware read error). -/
def Disk : Type := Nat → Option Nat

/-- Raw firmware read of `n` bytes at `off`: succeeds iff every byte
of the range is readable. -/
def readBytesRaw (d : Disk) (off n : Nat) : Option (List Nat) :=
  (List.range n).mapM (fun i => d (off + i))

/-- Overlay `bytes` on a disk starting at `base`. -/
def patchD (base : Nat) (bytes : List Nat) (d : Disk) : Disk :=
  fun i =>
    if base ≤ i ∧ i < base + bytes.length then some (bytes.getD (i - base) 0)
    else d i

/-- The all-zero readable disk. -/
def zeroDisk : Disk := fun _ => some 0

/-- The superblock fields the driver consumes, in `Ext4Superblock`
field order (`sizeof(Ext4Superblock)` as declared is 204 bytes). -/
structure Ext4Superblock where
  s_first_data_block : Nat   -- byte offset 20, u32
  s_log_block_size : Nat     -- byte offset 24, u32
  s_inodes_per_group : Nat   -- byte offset 40, u32
  s_magic : Nat              -- byte offset 56, u16
  s_rev_level : Nat          -- byte offset 76, u32
  s_inode_size : Nat         -- byte offset 88, u16
deriving DecidableEq, Repr

/-- Declared packed size of the C `Ext4Superblock` struct. -/
def sizeofExt4Superblock : Nat := 204

/-- Parse the consumed superblock fields out of the 204 raw bytes. -/
def parseSuperblock (b : List Nat) : Ext4Superblock :=
  { s_first_data_block := readLE b 20 4
    s_log_block_size := readLE b 24 4
    s_inodes_per_group := readLE b 40 4
    s_magic := readLE b 56 2
    s_rev_level := readLE b 76 4
    s_inode_size := readLE b 88 2 }

/-- The superblock of an `AllocateZeroPool`-ed context that was never
overwritten. -/
def zeroSuperblock : Ext4Superblock := ⟨0, 0, 0, 0, 0, 0⟩

/-- The `Ext4Context` driver state (block/disk I/O handles are reduced
to the `hasDiskIo` flag and the media block size). -/
structure Ext4Context where
  hasDiskIo : Bool
  mediaBs : Nat
  sb : Ext4Superblock
  block_size : Nat
  inode_size : Nat
  group_desc_size : Nat
deriving DecidableEq, Repr

/-- `ext4_read_block`: one filesystem block, via Disk I/O when present,
else via sector-aligned Block I/O (the fallback reads `block_size`
bytes from the covering sector boundary). -/
def ext4_read_block (c : Ext4Context) (d : Disk) (block : Nat) :
    Option (List Nat) :=
  let offset := block * c.block_size % 2 ^ 64
  if c.hasDiskIo then readBytesRaw d offset c.block_size
  else
    let lba := offset / c.mediaBs
    readBytesRaw d (lba * c.mediaBs) c.block_size

/-- `ext4_read_bytes`: arbitrary byte range, two-path policy. -/
def ext4_read_bytes (c : Ext4Context) (d : Disk) (offset size : Nat) :
    Option (List Nat) :=
  if c.hasDiskIo then readBytesRaw d offset size
  else
    let bs := c.mediaBs
    let start_lba := offset / bs
    let end_lba := (offset + size + bs - 1) / bs
    let total := (end_lba - start_lba) * bs
    match readBytesRaw d (start_lba * bs) total with
    | some tmp => some ((tmp.drop (offset % bs)).take size)
    | none => none

/-- `ext4_probe`: read the superblock at byte offset 1024 (through
Disk I/O, or a covering Block I/O read of `max(2048, BlockSize)`
bytes) and check the 0xEF53 magic. -/
def ext4_probe (d : Disk) (hasDiskIo : Bool) (mediaBs : Nat) : EfiStatus :=
  let sbBytes :=
    if hasDiskIo then readBytesRaw d 1024 sizeofExt4Superblock
    else
      let tmpSize := if mediaBs < 2048 then 2048 else mediaBs
      match readBytesRaw d (1024 / mediaBs * mediaBs) tmpSize with
      | some tmp => some ((tmp.drop (1024 % mediaBs)).take sizeofExt4Superblock)
      | none => none
  match sbBytes with
  | none => EfiStatus.deviceError
  | some b => if readLE b 56 2 = 0xEF53 then .success else .notFound

/-- `ext4_mount`: `AllocateZeroPool` the context, re-run the probe,
then — only on the Disk I/O path — copy the superblock into the
context (the `ReadDisk` status is discarded; on the Block-I/O-only
path the code never copies the superblock at all, leaving the zeroed
one). Finally derive block size, inode size and descriptor size. -/
def ext4_mount (d : Disk) (hasDiskIo : Bool) (mediaBs : Nat) :
    Option Ext4Context :=
  if ext4_probe d hasDiskIo mediaBs ≠ EfiStatus.success then none
  else
    let sb :=
      if hasDiskIo then
        match readBytesRaw d 1024 sizeofExt4Superblock with
        | some b => parseSuperblock b
        | none => zeroSuperblock
      else zeroSuperblock
    some { hasDiskIo := hasDiskIo, mediaBs := mediaBs, sb := sb
           block_size := 1024 * 2 ^ sb.s_log_block_size % 2 ^ 32
           inode_size := if 1 ≤ sb.s_rev_level then sb.s_inode_size else 128
           group_desc_size := 32 }

/-- The inode fields the driver consumes (`sizeof(Ext4Inode)` = 160). -/
structure Ext4Inode where
  i_mode : Nat               -- byte offset 0, u16
  i_size_lo : Nat            -- byte offset 4, u32
  i_flags : Nat              -- byte offset 32, u32
  i_block : List Nat         -- byte offset 40, 60 raw bytes
  i_size_high : Nat          -- byte offset 108, u32
deriving DecidableEq, Repr

/-- Declared packed size of the C `Ext4Inode` struct. -/
def sizeofExt4Inode : Nat := 160

/-- Parse the consumed inode fields out of the 160 raw bytes. -/
def parseInode (b : List Nat) : Ext4Inode :=
  { i_mode := readLE b 0 2
    i_size_lo := readLE b 4 4
    i_flags := readLE b 32 4
    i_block := (b.drop 40).take 60
    i_size_high := readLE b 108 4 }

/-- `ext4_read_inode`: group descriptor at
`(u32)(s_first_data_block + 1) × block_size + group × gd_size`
(`bg_inode_table_lo` is at byte offset 8 of the 32-byte descriptor),
then the inode at `inode_table × block_size + index × inode_size`.
`ino - 1` is 32-bit arithmetic. -/
def ext4_read_inode (c : Ext4Context) (d : Disk) (ino : Nat) :
    Option Ext4Inode :=
  let ino1 := (ino + 2 ^ 32 - 1) % 2 ^ 32
  let group := ino1 / c.sb.s_inodes_per_group
  let index := ino1 % c.sb.s_inodes_per_group
  let gd_offset := ((c.sb.s_first_data_block + 1) % 2 ^ 32 * c.block_size
                    + group * c.group_desc_size) % 2 ^ 64
  match ext4_read_bytes c d gd_offset 32 with
  | none => none
  | some gd =>
      let inode_table := readLE gd 8 4
      let inode_offset := (inode_table * c.block_size
                           + index * c.inode_size) % 2 ^ 64
      match ext4_read_bytes c d inode_offset sizeofExt4Inode with
      | none => none
      | some b => some (parseInode b)

/-- Inner loop of `ext4_read_file_data`: append blocks of one extent
(`for (b = 0; b < len_blocks && remaining > 0; b++)`); each full block
is read and `to_read = min(remaining, block_size)` bytes of it are
consumed. The state is `(acc, remaining)`. -/
def extentBlockLoop (c : Ext4Context) (d : Disk) (phys : Nat)
    (len_blocks remaining : Nat) (acc : List Nat) :
    Except EfiStatus (List Nat × Nat) :=
  (List.range len_blocks).foldl
    (fun st b =>
      match st with
      | .error e => .error e
      | .ok (acc, remaining) =>
          if 0 < remaining then
            match ext4_read_block c d ((phys + b) % 2 ^ 64) with
            | none => .error EfiStatus.deviceError
            | some blk =>
                .ok (acc ++ blk.take (min remaining c.block_size),
                     remaining - min remaining c.block_size)
          else .ok (acc, remaining))
    (.ok (acc, remaining))

/-- Outer loop of `ext4_read_file_data` over the `eh_entries` leaf
extents held in the 60 `i_block` bytes
(`for (i = 0; i < eh_entries && remaining > 0; i++)`; 12-byte header,
then 12-byte extents; `ee_len > 32768` marks an uninitialized extent
whose true length is `ee_len - 32768`). -/
def extentLoop (c : Ext4Context) (d : Disk) (ib : List Nat)
    (entries remaining : Nat) (acc : List Nat) :
    Except EfiStatus (List Nat × Nat) :=
  (List.range entries).foldl
    (fun st i =>
      match st with
      | .error e => .error e
      | .ok (acc, remaining) =>
          if 0 < remaining then
            extentBlockLoop c d
              (readLE ib (12 + i * 12 + 6) 2 * 2 ^ 32
                + readLE ib (12 + i * 12 + 8) 4)
              (if 32768 < readLE ib (12 + i * 12 + 4) 2 then
                readLE ib (12 + i * 12 + 4) 2 - 32768
               else readLE ib (12 + i * 12 + 4) 2)
              remaining acc
          else .ok (acc, remaining))
    (.ok (acc, remaining))

/-- `ext4_read_file_data`: require the `EXTENTS` flag, the 0xF30A
extent-header magic and depth 0, then walk the leaf extents. The
returned list is the bytes actually written to the caller's buffer
(if the extents cover fewer than `file_size` bytes the C leaves the
tail of the buffer unwritten and still returns success). -/
def ext4_read_file_data (c : Ext4Context) (d : Disk) (ino : Ext4Inode)
    (file_size : Nat) : Except EfiStatus (List Nat) :=
  if ino.i_flags &&& 0x80000 = 0 then .error EfiStatus.unsupported
  else if readLE ino.i_block 0 2 ≠ 0xF30A then .error EfiStatus.volumeCorrupted
  else if readLE ino.i_block 6 2 ≠ 0 then .error EfiStatus.unsupported
  else match extentLoop c d ino.i_block (readLE ino.i_block 2 2) file_size [] with
    | .error e => .error e
    | .ok (acc, _) => .ok acc

/-- Match test of one directory record against the searched name:
`inode != 0 && name_len == strlen(name) && strncmp8(name, …) == 0`. -/
def dirMatch (data nameB : List Nat) (pos : Nat) : Bool :=
  (readLE data pos 4 != 0) && (data.getD (pos + 6) 0 == nameB.length) &&
  ((List.range nameB.length).map (fun j => data.getD (pos + 8 + j) 0) == nameB)

/-- The record walk of `ext4_dir_lookup` over the in-memory directory
bytes: `while (p + 8 < end)`, stop on `rec_len == 0`, return the
record's inode on a match, else advance by `rec_len`. The walk is run
with an iteration budget `fuel`; `data.length + 1` is never exhausted
because every iteration advances the cursor by `rec_len >= 1`
(see the C10 theorems). -/
def dirWalk (data nameB : List Nat) : Nat → Nat → Nat
  | 0, _ => 0
  | fuel + 1, pos =>
      if pos + 8 < data.length then
        if readLE data (pos + 4) 2 = 0 then 0
        else if dirMatch data nameB pos then readLE data pos 4
        else dirWalk data nameB fuel (pos + readLE data (pos + 4) 2)
      else 0

/-- One iteration of the `ext4_dir_lookup` walk: `none` means the loop
stops at `pos`, `some pos'` means the cursor advances to `pos'`. -/
def dirStep (data nameB : List Nat) (pos : Nat) : Option Nat :=
  if pos + 8 < data.length then
    if readLE data (pos + 4) 2 = 0 then none
    else if dirMatch data nameB pos then none
    else some (pos + readLE data (pos + 4) 2)
  else none

/-- Number of directory records the walk visits starting at `pos`
(with the same iteration budget as `dirWalk`). -/
def dirVisits (data nameB : List Nat) : Nat → Nat → Nat
  | 0, _ => 0
  | fuel + 1, pos =>
      if pos + 8 < data.length then
        if readLE data (pos + 4) 2 = 0 then 1
        else if dirMatch data nameB pos then 1
        else 1 + dirVisits data nameB fuel (pos + readLE data (pos + 4) 2)
      else 0

/-- `ext4_dir_lookup`: read the whole directory into memory (the
unwritten tail of the allocation is modelled as zero bytes) and walk
its records; any read failure yields inode 0. -/
def ext4_dir_lookup (c : Ext4Context) (d : Disk) (dirIno : Ext4Inode)
    (nameB : List Nat) : Nat :=
  let dir_size := dirIno.i_size_high * 2 ^ 32 + dirIno.i_size_lo
  match ext4_read_file_data c d dirIno dir_size with
  | .error _ => 0
  | .ok bytes =>
      dirWalk (bytes ++ List.replicate (dir_size - bytes.length) 0) nameB
        ((bytes ++ List.replicate (dir_size - bytes.length) 0).length + 1) 0

/-- Component extraction of `ext4_resolve_path`: up to 255 non-`/`
bytes (`ci + 1 < sizeof(component)`), then one following `/` is
skipped. Returns the component and the remaining bytes. -/
def compSplit (bs : List Nat) : List Nat × List Nat :=
  let comp := (bs.takeWhile (fun x => x ≠ 47)).take 255
  let rest := bs.drop comp.length
  (comp, if rest.head? = some 47 then rest.tail else rest)

theorem compSplit_snd_lt (b : Nat) (rest0 : List Nat) (hb : ¬b = 47) :
    (compSplit (b :: rest0)).2.length < (b :: rest0).length := by
  have hcomp : (compSplit (b :: rest0)).1 =
      b :: ((rest0.takeWhile (fun x => x ≠ 47)).take 254) := by
    simp [compSplit, List.takeWhile_cons, hb]
  have h1 : 1 ≤ (compSplit (b :: rest0)).1.length := by
    rw [hcomp]; simp
  have h2 : ((b :: rest0).drop (compSplit (b :: rest0)).1.length).length
      ≤ rest0.length := by
    simp only [List.length_drop, List.length_cons]
    omega
  show (if ((b :: rest0).drop (compSplit (b :: rest0)).1.length).head?
        = some 47
      then ((b :: rest0).drop (compSplit (b :: rest0)).1.length).tail
      else (b :: rest0).drop (compSplit (b :: rest0)).1.length).length
      < (b :: rest0).length
  by_cases hh : ((b :: rest0).drop (compSplit (b :: rest0)).1.length).head?
      = some 47 <;>
    simp only [hh, if_true, if_false, List.length_tail, List.length_cons] <;>
    omega

/-- Component loop of `ext4_resolve_path` over the already-normalized
narrow bytes (the list stands for the NUL-terminated buffer contents,
so it contains no interior 0): skip empty components (a leading `/`),
else read the current inode and look the component up in it; a failed
inode read or a lookup miss returns 0. Every iteration consumes at
least one byte (`compSplit_snd_lt`), so a budget of `bs.length + 1`
iterations is never exhausted. -/
def resolveLoop (c : Ext4Context) (d : Disk) : Nat → List Nat → Nat → Nat
  | 0, _, _ => 0
  | _ + 1, [], ino => ino
  | fuel + 1, b :: rest0, ino =>
      if b = 47 then resolveLoop c d fuel rest0 ino
      else
        match ext4_read_inode c d ino with
        | none => 0
        | some dir =>
            let ino' := ext4_dir_lookup c d dir (compSplit (b :: rest0)).1
            if ino' = 0 then 0
            else resolveLoop c d fuel (compSplit (b :: rest0)).2 ino'

/-- `ext4_resolve_path`: widen-to-narrow transcoding capped at
`SB_MAX_PATH` (`sb_str16to8`: 511 chars, non-ASCII becomes `?`),
backslash → slash normalization, one leading `/` skipped, then the
component loop starting from root inode 2. -/
def ext4_resolve_path (c : Ext4Context) (d : Disk) (path : List Nat) : Nat :=
  let ap := ((path.takeWhile (fun ch => ch ≠ 0)).take 511).map
      (fun ch => if ch < 0x80 then ch else 63)
  let ap2 := ap.map (fun x => if x = 92 then 47 else x)
  let ap3 := if ap2.head? = some 47 then ap2.tail else ap2
  resolveLoop c d (ap3.length + 1) ap3 2

/-! ## Limine section config parser (`src/config/limine.c`)

The config text is a byte list standing for the NUL-terminated buffer
(the parser operates on the bytes before the first 0). Wide strings
are byte-value lists (narrowing `(CHAR16)(UINT8)` is the identity). -/

/-- ASCII bytes of a literal key or value. -/
def strBytes (s : String) : List Nat := s.data.map Char.toNat

/-- `sb_skip_whitespace`: skip spaces and tabs. -/
def sb_skip_whitespace (l : List Nat) : List Nat :=
  l.dropWhile (fun b => b = 32 ∨ b = 9)

/-- `sb_next_line`: skip to just after the next newline (or the end). -/
def sb_next_line (l : List Nat) : List Nat :=
  (l.dropWhile (fun b => b ≠ 10)).drop 1

/-- Trailing-whitespace trim applied to parsed values. -/
def trimTrail (l : List Nat) : List Nat :=
  (l.reverse.dropWhile (fun b => b = 32 ∨ b = 9)).reverse

/-- `sb_strstr8(src, "):")`: index of the first occurrence, comparing
through the terminating NUL like `sb_strncmp8` does. -/
def limineFindDevEnd (src : List Nat) : Option Nat :=
  (List.range src.length).find?
    (fun i => src.getD i 0 = 41 ∧ src.getD (i + 1) 0 = 58)

/-- `limine_path_to_uefi`: strip a device prefix up to `"):"`;
prepend a backslash when the remainder starts with neither `/` nor
`\` (including an empty remainder, whose NUL fails both tests);
rewrite `/` to `\`; cap the output at `max - 1` characters. -/
def limine_path_to_uefi (src : List Nat) (max : Nat) : List Nat :=
  let p := match limineFindDevEnd src with
    | some i => src.drop (i + 2)
    | none => src
  let lead : List Nat :=
    if p.headD 0 ≠ 47 ∧ p.headD 0 ≠ 92 ∧ 1 < max then [92] else []
  lead ++ (p.take (max - 1 - lead.length)).map
    (fun b => if b = 47 then 92 else b)

/-- The parsed boot-entry fields the Limine parser writes
(paths and title are wide strings; `initrd_count` is the list length,
bounded by `SB_MAX_INITRDS = 8`). -/
structure BootTarget where
  title : List Nat := []
  kernel_path : List Nat := []
  initrd_paths : List (List Nat) := []
  cmdline : List Nat := []
  is_chainload : Bool := false
  efi_path : List Nat := []
  index : Nat := 0
deriving DecidableEq, Repr

/-- A freshly `SetMem`-zeroed section entry. -/
def emptyTarget : BootTarget := {}

/-- Key dispatch of the section body (`kernel_path`, `kernel_cmdline`
/ `cmdline`, `module_path`, `protocol: chainload`, `path` /
`image_path`); unknown keys are ignored. -/
def limineApplyKey (t : BootTarget) (key value : List Nat) : BootTarget :=
  if key = strBytes "kernel_path" then
    { t with kernel_path := limine_path_to_uefi value 512 }
  else if key = strBytes "kernel_cmdline" ∨ key = strBytes "cmdline" then
    { t with cmdline := value.take 4095 }
  else if key = strBytes "module_path" then
    if t.initrd_paths.length < 8 then
      { t with initrd_paths := t.initrd_paths ++ [limine_path_to_uefi value 512] }
    else t
  else if key = strBytes "protocol" then
    if value = strBytes "chainload" then { t with is_chainload := true } else t
  else if key = strBytes "path" ∨ key = strBytes "image_path" then
    { t with efi_path := limine_path_to_uefi value 512, is_chainload := true }
  else t

/-- Acceptance test applied when a section closes:
`cur->kernel_path[0] || cur->is_chainload`. -/
def limineAccept (t : BootTarget) : Bool :=
  !t.kernel_path.isEmpty || t.is_chainload

/-- Close the current section, appending it to the output if accepted. -/
def limineClose (acc : List BootTarget) (cur : Option BootTarget) :
    List BootTarget :=
  match cur with
  | some t => if limineAccept t then acc ++ [t] else acc
  | none => acc

theorem dropWhileLenLe (p : Nat → Bool) (l : List Nat) :
    (l.dropWhile p).length ≤ l.length := by
  induction l with
  | nil => simp
  | cons a t ih =>
      by_cases h : p a <;> simp [List.dropWhile_cons, h] <;> omega

theorem sb_skip_whitespace_length_le (l : List Nat) :
    (sb_skip_whitespace l).length ≤ l.length :=
  dropWhileLenLe _ l

theorem sb_next_line_length_le (l : List Nat) :
    (sb_next_line l).length ≤ l.length := by
  have h1 := dropWhileLenLe (fun b => decide (b ≠ 10)) l
  simp only [sb_next_line, List.length_drop]
  omega

theorem sb_next_line_length_lt (c : Nat) (rest : List Nat) :
    (sb_next_line (c :: rest)).length < (c :: rest).length := by
  by_cases hc : c = 10
  · subst hc
    simp [sb_next_line, List.dropWhile_cons]
  · have h1 := dropWhileLenLe (fun b => decide (b ≠ 10)) rest
    simp only [sb_next_line, List.dropWhile_cons]
    rw [if_pos (show (decide (c ≠ 10)) = true by simp [hc])]
    simp only [List.length_drop, List.length_cons]
    omega

/-- Main loop of `limine_parse`: one pass over the lines, carrying the
accumulated output and the open section. Leading blanks are skipped;
an empty rest (the terminating NUL) ends the loop and closes the open
section; blank and comment lines are skipped; a `/` line first closes
the open section, then (capacity permitting) opens a new one whose
title is the rest of the line; key/value lines update the open
section. The loop runs for at most `fuel` iterations; every iteration
consumes at least one byte, so `bs.length + 1` is never exhausted. -/
def limineLoop (max : Nat) :
    Nat → List Nat → List BootTarget → Option BootTarget → List BootTarget
  | 0, _, acc, cur => limineClose acc cur
  | fuel + 1, bs, acc, cur =>
      match sb_skip_whitespace bs with
      | [] => limineClose acc cur
      | c :: rest =>
          if c = 10 then limineLoop max fuel rest acc cur
          else if c = 35 then
            limineLoop max fuel (sb_next_line (c :: rest)) acc cur
          else if c = 47 then
            if max ≤ (limineClose acc cur).length then limineClose acc cur
            else
              limineLoop max fuel (sb_next_line rest) (limineClose acc cur)
                (some { emptyTarget with
                          title := (rest.takeWhile (fun b => b ≠ 10)).take 255
                          index := (limineClose acc cur).length })
          else
            match cur with
            | some t =>
                limineLoop max fuel (sb_next_line (c :: rest)) acc
                  (some (limineApplyKey t
                    (((c :: rest).takeWhile (fun b => b ≠ 58 ∧ b ≠ 10)).take 127)
                    (trimTrail ((((sb_skip_whitespace
                        (let key := ((c :: rest).takeWhile
                            (fun b => b ≠ 58 ∧ b ≠ 10)).take 127
                         let afterKey := (c :: rest).drop key.length
                         if afterKey.head? = some 58 then afterKey.tail
                         else afterKey))).takeWhile (fun b => b ≠ 10)).take 4095))))
            | none => limineLoop max fuel (sb_next_line (c :: rest)) acc none

/-- `limine_parse(config_data, …, targets, count, max)`: returns the
accepted entries (the C fills the caller's array and returns the
count). The byte list before the first 0 is what the C ever reads. -/
def limine_parse (input : List Nat) (max : Nat) : List BootTarget :=
  limineLoop max ((input.takeWhile (fun b => b ≠ 0)).length + 1)
    (input.takeWhile (fun b => b ≠ 0)) [] none

/-! ## Concrete devices, environments and inputs used by the theorems -/

/-- An ext4 device (superblock magic 0xEF53 at offset 1024+56, and
`s_log_block_size = 2` at offset 1024+24) with everything else zero. -/
def diskC3 : Disk :=
  patchD 1048 [2] (patchD 1080 [0x53, 0xEF] zeroDisk)

/-- A small concrete ext4 image: root inode 2 is a directory holding
entry `a` → inode 12; inode 12 is a regular file (`i_mode = 0x81A4`)
whose 24 data bytes happen to form a directory record `b` → inode 13.
Layout: superblock at 1024 (`s_first_data_block = 1`,
`s_inodes_per_group = 16`), group descriptor at 2048 (inode table at
block 4), inodes at 4096 + (ino-1)·128, data blocks 8 and 9. -/
def diskC4 : Disk :=
  patchD 1044 [1] <| patchD 1064 [16] <| patchD 1080 [0x53, 0xEF] <|
  patchD 2056 [4] <|
  patchD 4228 [24] <| patchD 4256 [0, 0, 8, 0] <| patchD 4264 [10, 243, 1] <|
  patchD 4280 [1] <| patchD 4284 [8] <|
  patchD 5504 [164, 129] <| patchD 5508 [24] <| patchD 5536 [0, 0, 8, 0] <|
  patchD 5544 [10, 243, 1] <| patchD 5560 [1] <| patchD 5564 [9] <|
  patchD 8192 [12] <| patchD 8196 [12] <| patchD 8198 [1, 2, 97] <|
  patchD 9216 [13] <| patchD 9220 [12] <| patchD 9222 [1, 1, 98] zeroDisk

/-- The context `ext4_mount` builds for `diskC4` (with Disk I/O). -/
def ctxC4 : Ext4Context :=
  { hasDiskIo := true, mediaBs := 512
    sb := { s_first_data_block := 1, s_log_block_size := 0,
            s_inodes_per_group := 16, s_magic := 0xEF53,
            s_rev_level := 0, s_inode_size := 0 }
    block_size := 1024, inode_size := 128, group_desc_size := 32 }

/-- A disk on which every read fails. -/
def failDisk : Disk := fun _ => none

/-- A firmware environment offering no filesystem protocol on any
handle. -/
def envNone : VfsEnv :=
  { hasSFS := fun _ => false, hasBlockIo := fun _ => false
    probeOk := fun _ _ => false, mountCtx := fun _ _ => none }

/-- A firmware environment where every handle offers the native
SimpleFileSystem protocol. -/
def envSFS : VfsEnv :=
  { hasSFS := fun _ => true, hasBlockIo := fun _ => true
    probeOk := fun _ _ => false, mountCtx := fun _ _ => none }

/-- The Limine config of spec scenario 1. -/
def c9Input : List Nat :=
  strBytes "/Arch\n  protocol: linux\n  kernel_path: boot():/vmlinuz\n  kernel_cmdline: root=UUID=abc rw\n"

/-- A Limine section carrying only a `protocol: chainload` directive. -/
def c5Input : List Nat := strBytes "/Win\n  protocol: chainload\n"

/-! ## Theorems -/

/-- C1: the zero-page record as declared. The packed `LinuxBootParams`
declaration puts `e820_entries` at byte offset 0x1C0 (not 0x1E8), the
setup header at 0x1C9 (not 0x1F1), and its total size is 4056 bytes
(not 4096) — contradicting the source's own offset comments and its
`_Static_assert(sizeof(LinuxBootParams) == 4096)`. The legacy path
does copy the E820 table at the explicit offset 0x2D0, and the setup
header itself is 0x77 bytes (so 0x1F1 + 0x77 = 0x268 as the spec's
0x1F1–0x267 extent requires). -/
theorem c1_zero_page_layout :
    sizeofLinuxSetupHeader = 0x77 ∧
    e820EntriesOffset = 0x1C0 ∧
    hdrOffset = 0x1C9 ∧
    sizeofLinuxBootParams = 4056 ∧
    legacyE820TableOffset = 0x2D0 ∧
    e820EntriesOffset ≠ 0x1E8 ∧
    hdrOffset ≠ 0x1F1 ∧
    sizeofLinuxBootParams ≠ 4096 := by
  decide

/-- C2 counterexample: for `setup_sects = 1` the code computes
`setup_size = (1 + 1) × 512 = 1024`, not the claimed
`(max(1, 4) + 1) × 512 = 2560`, so the handover entry for a kernel
with `setup_sects = 1` and `handover_offset = 0x100` differs from the
claimed address. -/
theorem c2_counterexample :
    setupSize 1 = 1024 ∧
    setupSizeSpec 1 = 2560 ∧
    efiHandoverEntry 0 1 0x100 = some (1024 + 0x100 + 512) ∧
    efiHandoverEntry 0 1 0x100 ≠ some (setupSizeSpec 1 + 0x100 + 512) := by
  decide

/-- C2 amended: the entry point is
`kernel_buffer + setup_size + handover_offset + 512` where
`setup_size = ((setup_sects == 0 ? 4 : setup_sects) + 1) × 512`; only
`setup_sects = 0` is promoted to 4, so for `setup_sects ≥ 1` the size
is `(setup_sects + 1) × 512`, and the spec's `max` formula agrees with
the code only for `setup_sects = 0` or `setup_sects ≥ 4`. -/
theorem c2_handover_entry (kb ss ho : Nat) (hho : ho ≠ 0) :
    efiHandoverEntry kb ss ho = some (kb + setupSize ss + ho + 512) ∧
    (ss = 0 → setupSize ss = 2560) ∧
    (1 ≤ ss → setupSize ss = (ss + 1) * 512) ∧
    (ss = 0 ∨ 4 ≤ ss → setupSize ss = setupSizeSpec ss) := by
  refine ⟨by simp [efiHandoverEntry, hho], ?_, ?_, ?_⟩
  · intro h0; subst h0; decide
  · intro h1
    have hne : ss ≠ 0 := by omega
    simp [setupSize, hne]
  · rintro (h0 | h4)
    · subst h0; decide
    · have hne : ss ≠ 0 := by omega
      have hmax : max ss 4 = ss := by omega
      simp [setupSize, setupSizeSpec, hne, hmax]

/-- C2 witness: the amended statement at `kb = 4096`, `ss = 1`,
`ho = 256`. -/
theorem c2_handover_entry_witness :
    efiHandoverEntry 4096 1 256 = some (4096 + setupSize 1 + 256 + 512) ∧
    ((1 : Nat) = 0 → setupSize 1 = 2560) ∧
    ((1 : Nat) ≤ 1 → setupSize 1 = (1 + 1) * 512) ∧
    ((1 : Nat) = 0 ∨ 4 ≤ (1 : Nat) → setupSize 1 = setupSizeSpec 1) :=
  c2_handover_entry 4096 1 256 (by decide)

/-- C3: on a Block-I/O-only device `ext4_mount` succeeds (the probe
reads the real superblock through the sector path and sees the magic)
but never copies the superblock into the context, so the stored state
is derived from the zeroed superblock: `block_size = 1024` although
the device superblock at byte offset 1024 has `s_log_block_size = 2`
(so the spec-mandated size is 4096). With Disk I/O present the same
device mounts with `block_size = 4096`. -/
theorem c3_mount_ignores_superblock_without_diskio :
    ext4_mount diskC3 false 512 =
      some { hasDiskIo := false, mediaBs := 512, sb := zeroSuperblock
             block_size := 1024, inode_size := 128, group_desc_size := 32 } ∧
    (readBytesRaw diskC3 1024 sizeofExt4Superblock).map
        (fun b => (parseSuperblock b).s_log_block_size) = some 2 ∧
    (readBytesRaw diskC3 1024 sizeofExt4Superblock).map
        (fun b => (parseSuperblock b).s_magic) = some 0xEF53 ∧
    1024 * 2 ^ 2 % 2 ^ 32 = 4096 ∧
    (ext4_mount diskC3 true 512).map (fun c => c.block_size) = some 4096 := by
  decide

/-- C9: spec scenario 1 — the single-section Limine config parses to
exactly one entry with title `Arch`, kernel path `\vmlinuz` (device
prefix stripped, slash rewritten), the verbatim cmdline, and
`is_chainload = false`. -/
theorem c9_single_section_entry :
    limine_parse c9Input 64 =
      [{ title := strBytes "Arch"
         kernel_path := strBytes "\\vmlinuz"
         initrd_paths := []
         cmdline := strBytes "root=UUID=abc rw"
         is_chainload := false
         efi_path := []
         index := 0 }] := by
  decide

/-- C5 counterexample: a section carrying only `protocol: chainload`
is accepted into the output with `is_chainload = true` and an empty
`efi_path`, refuting the invariant that a chainload entry always has
a non-empty `efi_path`. -/
theorem c5_counterexample :
    limine_parse c5Input 64 =
      [{ title := strBytes "Win", is_chainload := true }] ∧
    ∃ t, t ∈ limine_parse c5Input 64 ∧ t.is_chainload = true ∧
      t.efi_path = [] := by
  refine ⟨by decide, ⟨{ title := strBytes "Win", is_chainload := true },
    by decide, by decide, by decide⟩⟩

/-- C4 counterexample: on `diskC4`, the path `/a/b` resolves through
inode 12 — a regular file (`i_mode` class nibble 8, not the directory
nibble 4) whose data bytes merely look like a directory record — and
returns inode 13 rather than the claimed 0, because the resolver
never checks that an intermediate inode is a directory. -/
theorem c4_counterexample :
    ext4_mount diskC4 true 512 = some ctxC4 ∧
    ext4_resolve_path ctxC4 diskC4 [47, 97] = 12 ∧
    (ext4_read_inode ctxC4 diskC4 12).map (fun i => i.i_mode / 4096) =
      some 8 ∧
    ext4_resolve_path ctxC4 diskC4 [47, 97, 47, 98] = 13 ∧
    ext4_resolve_path ctxC4 diskC4 [47, 97, 47, 98] ≠ 0 := by
  refine ⟨by decide, by decide, by decide, by decide, by decide⟩

/-- C4 amended: path resolution starts from root inode 2 (empty and
separator-only paths resolve to 2), skips empty components, and for
each component reads the current inode and applies the directory
lookup to it with no directory check; a failed inode read yields 0,
and so does a lookup miss (`ext4_dir_lookup` returns 0 which the loop
propagates) — but a non-directory intermediate inode is searched like
any other, as the step equation shows. -/
theorem c4_resolve_path_walk :
    (∀ c d, ext4_resolve_path c d [] = 2 ∧ ext4_resolve_path c d [47] = 2) ∧
    (∀ (c : Ext4Context) (d : Disk) (fuel : Nat) (rest : List Nat) (ino : Nat),
       resolveLoop c d (fuel + 1) (47 :: rest) ino =
         resolveLoop c d fuel rest ino) ∧
    (∀ (c : Ext4Context) (d : Disk) (bs : List Nat) (ino : Nat),
       bs.any (fun b => b ≠ 47) = true →
       ext4_read_inode c d ino = none →
       resolveLoop c d (bs.length + 1) bs ino = 0) ∧
    (∀ (c : Ext4Context) (d : Disk) (fuel b : Nat) (rest : List Nat)
       (ino : Nat), ¬b = 47 →
       resolveLoop c d (fuel + 1) (b :: rest) ino =
         (match ext4_read_inode c d ino with
          | none => 0
          | some dir =>
              if ext4_dir_lookup c d dir (compSplit (b :: rest)).1 = 0 then 0
              else resolveLoop c d fuel (compSplit (b :: rest)).2
                (ext4_dir_lookup c d dir (compSplit (b :: rest)).1))) := by
  refine ⟨?_, ?_, ?_, ?_⟩
  · intro c d
    exact ⟨rfl, rfl⟩
  · intro c d fuel rest ino
    simp [resolveLoop]
  · intro c d bs ino hany hread
    induction bs with
    | nil => simp at hany
    | cons b rest ih =>
        by_cases hb : b = 47
        · subst hb
          have hany' : rest.any (fun b => b ≠ 47) = true := by
            simpa using hany
          simpa [resolveLoop, List.length_cons] using ih hany'
        · simp [resolveLoop, List.length_cons, hb, hread]
  · intro c d fuel b rest ino hb
    cases hread : ext4_read_inode c d ino with
    | none => simp [resolveLoop, hb, hread]
    | some dir => simp [resolveLoop, hb, hread]

/-- C4 witness: the amended statement applied with its hypotheses
discharged — a failed inode read on a component makes resolution
return 0 (`failDisk`), and the step equation at a concrete input. -/
theorem c4_resolve_path_walk_witness :
    resolveLoop ctxC4 failDisk (([97] : List Nat).length + 1) [97] 2 = 0 ∧
    resolveLoop ctxC4 diskC4 (3 + 1) (97 :: [47, 98]) 2 =
      (match ext4_read_inode ctxC4 diskC4 2 with
       | none => 0
       | some dir =>
           if ext4_dir_lookup ctxC4 diskC4 dir (compSplit (97 :: [47, 98])).1 = 0
           then 0
           else resolveLoop ctxC4 diskC4 3 (compSplit (97 :: [47, 98])).2
             (ext4_dir_lookup ctxC4 diskC4 dir (compSplit (97 :: [47, 98])).1)) :=
  ⟨c4_resolve_path_walk.2.2.1 ctxC4 failDisk [97] 2 (by decide) (by decide),
   c4_resolve_path_walk.2.2.2 ctxC4 diskC4 3 97 [47, 98] 2 (by decide)⟩

/-- C10 counterexample: an 8-byte directory buffer at cursor 0 — the
walk stops (`p + 8 < end` fails with exactly 8 bytes remaining), yet
none of the claimed stop reasons holds: 8 bytes remaining is not
"fewer than 8", the record's `rec_len` field reads 5 ≠ 0, and the
name does not match. -/
theorem c10_counterexample :
    dirStep [1, 0, 0, 0, 5, 0, 1, 0] [65, 66] 0 = none ∧
    ¬(([1, 0, 0, 0, 5, 0, 1, 0] : List Nat).length - 0 < 8) ∧
    readLE [1, 0, 0, 0, 5, 0, 1, 0] (0 + 4) 2 ≠ 0 ∧
    dirMatch [1, 0, 0, 0, 5, 0, 1, 0] [65, 66] 0 = false := by
  decide

/-- C10 amended: every iteration of the `ext4_dir_lookup` walk either
stops — exactly when at most 8 bytes remain (`¬(pos + 8 < len)`), the
record's `rec_len` is 0, or the record matches the searched name — or
advances the cursor by `rec_len ≥ 1`; consequently at most
`dir_size - pos` records are ever visited from cursor `pos`, however
corrupt the record lengths, and any iteration budget of at least
`data.length - pos` behaves identically (the loop terminates). -/
theorem c10_dir_walk_terminates :
    (∀ data nameB pos, dirStep data nameB pos = none ↔
       (data.length ≤ pos + 8 ∨ readLE data (pos + 4) 2 = 0 ∨
        dirMatch data nameB pos = true)) ∧
    (∀ data nameB pos posN, dirStep data nameB pos = some posN →
       posN = pos + readLE data (pos + 4) 2 ∧ pos + 1 ≤ posN) ∧
    (∀ data nameB fuel pos,
       dirVisits data nameB fuel pos ≤ data.length - pos) ∧
    (∀ (data nameB : List Nat) f1 f2 pos,
       data.length ≤ pos + f1 → data.length ≤ pos + f2 →
       dirWalk data nameB f1 pos = dirWalk data nameB f2 pos) := by
  refine ⟨?_, ?_, ?_, ?_⟩
  · intro data nameB pos
    simp only [dirStep]
    split_ifs with h8 hrl hm
    · simp [hrl]
    · simp [hm]
    · simp only [reduceCtorEq, false_iff]
      push_neg
      exact ⟨by omega, hrl, by simp [hm]⟩
    · simp only [true_iff]
      left; omega
  · intro data nameB pos posN h
    simp only [dirStep] at h
    split_ifs at h with h8 hrl hm
    all_goals try exact Option.noConfusion h
    have hinj : pos + readLE data (pos + 4) 2 = posN := Option.some.inj h
    exact ⟨hinj.symm, by omega⟩
  · intro data nameB fuel
    induction fuel with
    | zero => intro pos; simp [dirVisits]
    | succ fuel ih =>
        intro pos
        simp only [dirVisits]
        split_ifs with h8 hrl hm
        · omega
        · omega
        · have := ih (pos + readLE data (pos + 4) 2)
          omega
        · omega
  · intro data nameB f1
    induction f1 with
    | zero =>
        intro f2 pos h1 h2
        cases f2 with
        | zero => rfl
        | succ f2 =>
            simp only [dirWalk]
            rw [if_neg (by omega)]
    | succ f1 ih =>
        intro f2 pos h1 h2
        cases f2 with
        | zero =>
            simp only [dirWalk]
            rw [if_neg (by omega)]
        | succ f2 =>
            simp only [dirWalk]
            by_cases h8 : pos + 8 < data.length
            · rw [if_pos h8, if_pos h8]
              by_cases hrl : readLE data (pos + 4) 2 = 0
              · rw [if_pos hrl, if_pos hrl]
              · rw [if_neg hrl, if_neg hrl]
                by_cases hm : dirMatch data nameB pos
                · rw [if_pos hm, if_pos hm]
                · rw [if_neg hm, if_neg hm]
                  exact ih f2 (pos + readLE data (pos + 4) 2)
                    (by omega) (by omega)
            · rw [if_neg h8, if_neg h8]

/-- C7: the legacy-path hand-off tail. Over every firmware oracle:
`ExitBootServices` is called at most twice and `AllocatePool` at most
once (the retry re-fetches into the existing buffer — the trace after
the first `ExitBootServices` holds only `GetMemoryMap` calls and the
one retry); when the first `ExitBootServices` fails, the full trace is
the size probe, the allocation, the map fetch, the failing call, the
re-fetch pair, and — exactly when the re-fetch succeeded — one retried
`ExitBootServices`, whose failure (or a failed re-fetch) aborts by
returning that error; when the first call succeeds there is exactly
one `ExitBootServices` and control reaches the kernel jump. -/
theorem c7_exit_boot_services_retry (o : LegacyOracle) :
    (legacyTail o).2.count FwCall.exitBS ≤ 2 ∧
    (legacyTail o).2.count FwCall.allocPool ≤ 1 ∧
    (o.allocOk = true → o.map1 = EfiStatus.success →
     o.ebs1 ≠ EfiStatus.success →
       (legacyTail o).2 =
         [FwCall.getMapSize, FwCall.allocPool, FwCall.getMap, FwCall.exitBS,
          FwCall.getMapSize, FwCall.getMap] ++
           (if o.map2 = EfiStatus.success then [FwCall.exitBS] else []) ∧
       (legacyTail o).1 =
         (if o.map2 = EfiStatus.success then
            (if o.ebs2 = EfiStatus.success then none else some o.ebs2)
          else some o.map2)) ∧
    (o.allocOk = true → o.map1 = EfiStatus.success →
     o.ebs1 = EfiStatus.success →
       (legacyTail o).1 = none ∧
       (legacyTail o).2 =
         [FwCall.getMapSize, FwCall.allocPool, FwCall.getMap,
          FwCall.exitBS]) := by
  obtain ⟨a, m1, e1, m2, e2⟩ := o
  by_cases ha : a = true <;>
    by_cases hm1 : m1 = EfiStatus.success <;>
      by_cases he1 : e1 = EfiStatus.success <;>
        by_cases hm2 : m2 = EfiStatus.success <;>
          by_cases he2 : e2 = EfiStatus.success <;>
            simp_all [legacyTail] <;> decide

/-- C7 witness: the retry conjunct applied to the oracle
"stale key, successful re-fetch, successful retry". -/
theorem c7_exit_boot_services_retry_witness :
    (legacyTail ⟨true, EfiStatus.success, EfiStatus.invalidParameter,
        EfiStatus.success, EfiStatus.success⟩).2 =
      [FwCall.getMapSize, FwCall.allocPool, FwCall.getMap, FwCall.exitBS,
       FwCall.getMapSize, FwCall.getMap] ++
        (if EfiStatus.success = EfiStatus.success then [FwCall.exitBS]
         else []) ∧
    (legacyTail ⟨true, EfiStatus.success, EfiStatus.invalidParameter,
        EfiStatus.success, EfiStatus.success⟩).1 =
      (if EfiStatus.success = EfiStatus.success then
         (if EfiStatus.success = EfiStatus.success then none
          else some EfiStatus.success)
       else some EfiStatus.success) :=
  (c7_exit_boot_services_retry _).2.2.1 rfl rfl (by decide)

theorem find_mount_append_self (tbl : List VfsMount) (m : VfsMount)
    (d : Nat) (hm : m.device = d) (h : find_mount tbl d = none) :
    find_mount (tbl ++ [m]) d = some m := by
  induction tbl with
  | nil => simp [find_mount, List.find?, hm]
  | cons x xs ih =>
      by_cases hx : x.device = d
      · simp [find_mount, List.find?_cons, hx] at h
      · simp only [find_mount, List.find?_cons, hx, decide_False] at h ⊢
        simp only [List.cons_append, List.find?_cons, hx, decide_False]
        exact ih h

theorem find_mount_none_count (tbl : List VfsMount) (d : Nat)
    (h : find_mount tbl d = none) : mountKeyCount tbl d = 0 := by
  induction tbl with
  | nil => simp [mountKeyCount]
  | cons x xs ih =>
      by_cases hx : x.device = d
      · simp [find_mount, List.find?_cons, hx] at h
      · simp only [find_mount, List.find?_cons, hx, decide_False] at h
        simp only [mountKeyCount, List.filter_cons, hx, decide_False,
          if_false]
        exact ih h

theorem mountKeyCount_append_self (tbl : List VfsMount) (m : VfsMount)
    (d : Nat) (hm : m.device = d) :
    mountKeyCount (tbl ++ [m]) d = mountKeyCount tbl d + 1 := by
  simp [mountKeyCount, List.filter_append, hm]

theorem limineClose_mem (acc : List BootTarget) (cur : Option BootTarget) :
    ∀ t ∈ limineClose acc cur, t ∈ acc ∨ limineAccept t = true := by
  intro t ht
  cases cur with
  | none => exact Or.inl ht
  | some u =>
      by_cases hu : limineAccept u = true
      · simp only [limineClose, hu, if_true] at ht
        rcases List.mem_append.mp ht with h | h
        · exact Or.inl h
        · simp only [List.mem_singleton] at h
          subst h
          exact Or.inr hu
      · simp only [limineClose, hu, if_false] at ht
        exact Or.inl ht

theorem limineLoop_mem (max : Nat) :
    ∀ fuel bs acc cur, ∀ t ∈ limineLoop max fuel bs acc cur,
      t ∈ acc ∨ limineAccept t = true := by
  intro fuel
  induction fuel with
  | zero => intro bs acc cur t ht; exact limineClose_mem acc cur t ht
  | succ fuel ih =>
      intro bs acc cur t ht
      rw [limineLoop] at ht
      cases hs : sb_skip_whitespace bs with
      | nil =>
          rw [hs] at ht
          exact limineClose_mem acc cur t ht
      | cons c rest =>
          rw [hs] at ht
          simp only [] at ht
          by_cases h10 : c = 10
          · rw [if_pos h10] at ht
            exact ih rest acc cur t ht
          · rw [if_neg h10] at ht
            by_cases h35 : c = 35
            · rw [if_pos h35] at ht
              exact ih _ acc cur t ht
            · rw [if_neg h35] at ht
              by_cases h47 : c = 47
              · rw [if_pos h47] at ht
                by_cases hmax : max ≤ (limineClose acc cur).length
                · rw [if_pos hmax] at ht
                  exact limineClose_mem acc cur t ht
                · rw [if_neg hmax] at ht
                  rcases ih _ _ _ t ht with h | h
                  · exact limineClose_mem acc cur t h
                  · exact Or.inr h
              · rw [if_neg h47] at ht
                cases cur with
                | some u => exact ih _ acc _ t ht
                | none => exact ih _ acc none t ht

/-- C5 amended: every entry the section parser accepts has a
non-empty `kernel_path` or the chainload flag; in particular when
`is_chainload` is false the `kernel_path` is set. (The other half of
the claimed invariant fails: a chainload entry may have an empty
`efi_path` — see the counterexample.) -/
theorem c5_section_accept (input : List Nat) (max : Nat) :
    ∀ t ∈ limine_parse input max,
      (¬t.kernel_path = [] ∨ t.is_chainload = true) ∧
      (t.is_chainload = false → ¬t.kernel_path = []) := by
  intro t ht
  have h := limineLoop_mem max _ _ [] none t ht
  rcases h with h | h
  · simp at h
  · have hmain : ¬t.kernel_path = [] ∨ t.is_chainload = true := by
      simpa [limineAccept] using h
    refine ⟨hmain, fun hcf => ?_⟩
    rcases hmain with h1 | h1
    · exact h1
    · rw [hcf] at h1
      exact absurd h1 (by simp)

/-- C5 witness: the amended statement applied to the entry parsed from
the spec-scenario-1 config, with the membership and flag hypotheses
discharged. -/
theorem c5_section_accept_witness :
    ¬({ title := strBytes "Arch", kernel_path := strBytes "\\vmlinuz",
        initrd_paths := [], cmdline := strBytes "root=UUID=abc rw",
        is_chainload := false, efi_path := [], index := 0 } :
        BootTarget).kernel_path = [] :=
  (c5_section_accept c9Input 64 _ (by decide)).2 rfl

/-- C8 counterexample: on a device handle offering no filesystem
protocol at all, the first `sb_vfs_open_device` fails, and so does the
second — the claim that the second of two `open(d)` calls returns
success does not hold for every device and mount-table state (it holds
whenever the first call succeeded). -/
theorem c8_counterexample :
    (sb_vfs_open_device envNone [] 0).1 ≠ EfiStatus.success ∧
    (sb_vfs_open_device envNone (sb_vfs_open_device envNone [] 0).2 0).1 ≠
      EfiStatus.success ∧
    (sb_vfs_open_device envNone (sb_vfs_open_device envNone [] 0).2 0).2 =
      (sb_vfs_open_device envNone [] 0).2 := by
  decide

/-- C8 amended: `open(d)` is idempotent — the second call leaves the
mount table exactly as the first left it, returns success whenever
the first call succeeded (and repeats the first call's failure
otherwise), and adds no entry keyed by `d`; a single call keeps at
most one entry keyed by `d` in the table. -/
theorem c8_open_idempotent (env : VfsEnv) (tbl : List VfsMount) (d : Nat) :
    (sb_vfs_open_device env (sb_vfs_open_device env tbl d).2 d).2 =
      (sb_vfs_open_device env tbl d).2 ∧
    ((sb_vfs_open_device env tbl d).1 = EfiStatus.success →
      (sb_vfs_open_device env (sb_vfs_open_device env tbl d).2 d).1 =
        EfiStatus.success) ∧
    mountKeyCount
        (sb_vfs_open_device env (sb_vfs_open_device env tbl d).2 d).2 d =
      mountKeyCount (sb_vfs_open_device env tbl d).2 d ∧
    (mountKeyCount tbl d ≤ 1 →
      mountKeyCount (sb_vfs_open_device env tbl d).2 d ≤ 1) := by
  by_cases hf : (find_mount tbl d).isSome
  · simp [sb_vfs_open_device, hf]
  · have hn : find_mount tbl d = none := by
      cases hfm : find_mount tbl d
      · rfl
      · simp [hfm] at hf
    have hcnt0 := find_mount_none_count tbl d hn
    by_cases hlen : VFS_MAX_MOUNTS ≤ tbl.length
    · simp [sb_vfs_open_device, hn, hlen]
    · by_cases hsfs : env.hasSFS d = true
      · have hfind2 :=
          find_mount_append_self tbl ⟨d, true, none, none⟩ d rfl hn
        simp [sb_vfs_open_device, hn, hlen, hsfs, hfind2,
          mountKeyCount_append_self, hcnt0]
      · by_cases hbio : env.hasBlockIo d = false
        · simp [sb_vfs_open_device, hn, hlen, hsfs, hbio]
        · cases htd : tryDrivers env d builtinDriverIdx with
          | none => simp [sb_vfs_open_device, hn, hlen, hsfs, hbio, htd]
          | some pr =>
              obtain ⟨i, ctx⟩ := pr
              have hfind2 := find_mount_append_self tbl
                ⟨d, false, some i, some ctx⟩ d rfl hn
              simp [sb_vfs_open_device, hn, hlen, hsfs, hbio, htd, hfind2,
                mountKeyCount_append_self, hcnt0]

/-- C8 witness: the amended statement with its hypotheses discharged
on a native-filesystem device — the second open returns success and
the table after the second call is the table after the first. -/
theorem c8_open_idempotent_witness :
    (sb_vfs_open_device envSFS (sb_vfs_open_device envSFS [] 0).2 0).1 =
      EfiStatus.success ∧
    (sb_vfs_open_device envSFS (sb_vfs_open_device envSFS [] 0).2 0).2 =
      (sb_vfs_open_device envSFS [] 0).2 ∧
    mountKeyCount (sb_vfs_open_device envSFS [] 0).2 0 ≤ 1 :=
  ⟨(c8_open_idempotent envSFS [] 0).2.1 (by decide),
   (c8_open_idempotent envSFS [] 0).1,
   (c8_open_idempotent envSFS [] 0).2.2.2 (by decide)⟩

theorem e820Step_length_le (acc : List E820Entry) (t a sz : Nat) :
    (e820Step acc t a sz).length ≤ acc.length + 1 := by
  cases hlast : acc.getLast? with
  | none => simp [e820Step, hlast]
  | some prev =>
      have hne : acc ≠ [] := by
        intro h; subst h; simp at hlast
      by_cases hcond : prev.type = t ∧ (prev.addr + prev.size) % 2 ^ 64 = a
      · simp only [e820Step, hlast, if_pos hcond, List.length_append,
          List.length_dropLast, List.length_cons, List.length_nil]
        omega
      · simp only [e820Step, hlast, if_neg hcond, List.length_append,
          List.length_cons, List.length_nil]
        omega

theorem e820Walk_length_le (bytes : List Nat) (ms ds maxE : Nat) :
    ∀ fuel pos acc, acc.length ≤ maxE →
      (e820Walk bytes ms ds maxE fuel pos acc).length ≤ maxE := by
  intro fuel
  induction fuel with
  | zero => intro pos acc h; simpa [e820Walk] using h
  | succ fuel ih =>
      intro pos acc h
      simp only [e820Walk]
      split_ifs with hcond
      · exact ih (pos + ds) _
          (le_trans (e820Step_length_le acc _ _ _) (by omega))
      · simpa using h

/-- C6: the EFI-memory-map → E820 conversion. The type mapping sends
loader code/data, boot-services code/data and conventional memory to
1, ACPI-reclaim to 3, ACPI-NVS to 4 and everything else to 2; a
descriptor merges into the previous output entry exactly when the
mapped type matches and the previous entry's end (64-bit sum) equals
the descriptor's start, summing the sizes; the walk steps through the
buffer with the `desc_size` stride and never emits more than
`max_entries` (128 at the call site) entries; and on the three-entry
map of spec scenario 6 it emits exactly `{0x0, 0x3000, 1}` and
`{0x4000, 0x1000, 3}`. -/
theorem c6_e820_conversion :
    (efi_mem_to_e820_type EfiLoaderCode = 1 ∧
     efi_mem_to_e820_type EfiLoaderData = 1 ∧
     efi_mem_to_e820_type EfiBootServicesCode = 1 ∧
     efi_mem_to_e820_type EfiBootServicesData = 1 ∧
     efi_mem_to_e820_type EfiConventionalMemory = 1 ∧
     efi_mem_to_e820_type EfiACPIReclaimMemory = 3 ∧
     efi_mem_to_e820_type EfiACPIMemoryNVS = 4) ∧
    (∀ t : Nat,
       t ∉ ([EfiLoaderCode, EfiLoaderData, EfiBootServicesCode,
             EfiBootServicesData, EfiConventionalMemory,
             EfiACPIReclaimMemory, EfiACPIMemoryNVS] : List Nat) →
       efi_mem_to_e820_type t = 2) ∧
    (∀ (acc : List E820Entry) (t a sz : Nat) (prev : E820Entry),
       acc.getLast? = some prev →
       (e820Step acc t a sz =
           acc.dropLast ++
             [⟨prev.addr, (prev.size + sz) % 2 ^ 64, prev.type⟩] ↔
         prev.type = t ∧ (prev.addr + prev.size) % 2 ^ 64 = a)) ∧
    (∀ bytes ms ds maxE,
       (sb_efi_memmap_to_e820 bytes ms ds maxE).length ≤ maxE) ∧
    sb_efi_memmap_to_e820
        (mkDesc48 EfiLoaderCode 0x0 1 ++ mkDesc48 EfiLoaderData 0x1000 2 ++
         mkDesc48 EfiACPIReclaimMemory 0x4000 1) 144 48 128 =
      [⟨0x0, 0x3000, 1⟩, ⟨0x4000, 0x1000, 3⟩] := by
  refine ⟨by decide, ?_, ?_, ?_, by decide⟩
  · intro t ht
    simp only [List.mem_cons, List.not_mem_nil, or_false, EfiLoaderCode,
      EfiLoaderData, EfiBootServicesCode, EfiBootServicesData,
      EfiConventionalMemory, EfiACPIReclaimMemory, EfiACPIMemoryNVS] at ht
    push_neg at ht
    obtain ⟨h1, h2, h3, h4, h7, h9, h10⟩ := ht
    simp only [efi_mem_to_e820_type, EfiLoaderCode, EfiLoaderData,
      EfiBootServicesCode, EfiBootServicesData, EfiConventionalMemory,
      EfiACPIReclaimMemory, EfiACPIMemoryNVS]
    rw [if_neg (by tauto), if_neg h9, if_neg h10]
  · intro acc t a sz prev hlast
    have hne : acc ≠ [] := by
      intro h; subst h; simp at hlast
    constructor
    · intro heq
      by_contra hcond
      simp only [e820Step, hlast] at heq
      rw [if_neg hcond] at heq
      have hlen := congrArg List.length heq
      simp only [List.length_append, List.length_dropLast,
        List.length_cons, List.length_nil] at hlen
      have : 1 ≤ acc.length := by
        cases acc with
        | nil => exact absurd rfl hne
        | cons x xs => simp
      omega
    · intro hcond
      simp only [e820Step, hlast]
      rw [if_pos hcond]
  · intro bytes ms ds maxE
    exact e820Walk_length_le bytes ms ds maxE (ms + 1) 0 [] (by simp)

/-- C6 witness: the conversion applied with its hypotheses discharged
— an unmapped firmware type (5, runtime-services code) becomes
reserved, a concrete abutting same-type descriptor merges, and the
capacity bound at a concrete call. -/
theorem c6_e820_conversion_witness :
    efi_mem_to_e820_type 5 = 2 ∧
    e820Step [⟨0, 4096, 1⟩] 1 4096 4096 =
      List.dropLast [(⟨0, 4096, 1⟩ : E820Entry)] ++
        [⟨0, (4096 + 4096) % 2 ^ 64, 1⟩] ∧
    (sb_efi_memmap_to_e820 (mkDesc48 7 0 1) 48 48 128).length ≤ 128 :=
  ⟨c6_e820_conversion.2.1 5 (by decide),
   (c6_e820_conversion.2.2.1 [⟨0, 4096, 1⟩] 1 4096 4096 ⟨0, 4096, 1⟩
       (by decide)).mpr (by decide),
   c6_e820_conversion.2.2.2.1 (mkDesc48 7 0 1) 48 48 128⟩

/-- C10 witness: the amended statement applied with its hypotheses
discharged — a concrete advancing step, and fuel-irrelevance at a
concrete buffer. -/
theorem c10_dir_walk_terminates_witness :
    ((9 : Nat) = 0 + readLE [1, 0, 0, 0, 9, 0, 1, 0, 0, 0] (0 + 4) 2 ∧
      0 + 1 ≤ 9) ∧
    dirWalk [1, 0, 0, 0, 5, 0, 1, 0] [65] 9 0 =
      dirWalk [1, 0, 0, 0, 5, 0, 1, 0] [65] 12 0 :=
  ⟨c10_dir_walk_terminates.2.1 [1, 0, 0, 0, 9, 0, 1, 0, 0, 0] [65] 0 9
      (by decide),
   c10_dir_walk_terminates.2.2.2 [1, 0, 0, 0, 5, 0, 1, 0] [65] 9 12 0
      (by decide) (by decide)⟩

end SuperBoot
